import Mathlib

/-!
# Offline-account bookkeeping of `apps/app-frontend/src/helpers/auth.js`

A shallow embedding of `getOfflineAccounts`, `saveOfflineAccounts`,
`offline_login`, `users`, `set_default_user`, `get_default_user`, `remove_user`
and `isLocalAccount`.  The source declares `users`, `set_default_user`,
`get_default_user` and `remove_user` twice; the later declarations, which carry
the offline logic, are the ones embedded (the earlier ones only forward to the
backend).

Modelling decisions:

* `localStorage` is a total map from keys to optional strings; `setItem` always
  succeeds.
* strings are sequences of Unicode characters.
* `JSON.parse` / `JSON.stringify` are platform built-ins; they are taken as a
  parameter (`JsonCodec`).  Theorems that need a value to survive a
  write-then-read assume `JsonCodec.Lawful`, which asks this of arrays of
  account records only.
* the native backend reached through `invoke` is a parameter (`Backend`): an
  arbitrary state machine whose every answer is either a value or a rejection.
  Every `invoke` is recorded in `World.calls`, so that "no command was sent"
  can be stated.
* JavaScript exceptions are results in `Except JsError`.
* the functions run one after the other: an `await` is a plain call.
-/

namespace Auth

/-- JSON values, as produced by `JSON.parse`.  Numbers are never inspected by
this module. -/
inductive JVal where
  | null : JVal
  | bool : Bool → JVal
  | num : Int → JVal
  | str : String → JVal
  | arr : List JVal → JVal
  | obj : List (String × JVal) → JVal

/-- Exceptions this module can raise or let through. -/
inductive JsError where
  /-- An `Error` thrown by the module itself: `throw new Error(msg)`. -/
  | error : String → JsError
  /-- A `TypeError` raised by the runtime (method call on a non-array,
  property read on `null`, spreading a non-iterable) -/
  | typeError : JsError
  /-- A rejected `invoke` promise, with the backend's reason -/
  | rejected : JVal → JsError

/-- The two platform functions `JSON.parse` (with `none` for a `SyntaxError`)
and `JSON.stringify`. -/
structure JsonCodec where
  parse : String → Option JVal
  stringify : JVal → String

/-- Model of `localStorage`: a string-keyed, string-valued store. -/
abbrev LocalStorage := String → Option String

/-- Model of `localStorage.getItem(key)`; `none` is JavaScript `null`. -/
def LocalStorage.getItem (ls : LocalStorage) (key : String) : Option String :=
  ls key

/-- Model of `localStorage.setItem(key, value)`. -/
def LocalStorage.setItem (ls : LocalStorage) (key value : String) : LocalStorage :=
  fun k => if k = key then some value else ls k

/-- Model of `localStorage.removeItem(key)`. -/
def LocalStorage.removeItem (ls : LocalStorage) (key : String) : LocalStorage :=
  fun k => if k = key then none else ls k

/-- A storage with no keys. -/
def LocalStorage.empty : LocalStorage := fun _ => none

/-- Source: `const OFFLINE_ACCOUNTS_KEY = 'offline_accounts'`. -/
def OFFLINE_ACCOUNTS_KEY : String := "offline_accounts"

/-- Source: `const OFFLINE_USER_PREFIX = 'offline-'`. -/
def OFFLINE_USER_PREFIX : String := "offline-"

/-- The literal key `'default_user'` used for the default-user pointer. -/
def DEFAULT_USER_KEY : String := "default_user"

/-- Model of `String.prototype.startsWith`, on sequences of characters. -/
def startsWith (s pre : String) : Bool :=
  pre.data.isPrefixOf s.data

/-- Source: `function getOfflineAccounts()`.  `!raw` holds for `null` and for
the empty string; a `SyntaxError` of `JSON.parse` is caught. -/
def getOfflineAccounts (J : JsonCodec) (ls : LocalStorage) : JVal :=
  match ls.getItem OFFLINE_ACCOUNTS_KEY with
  | none => .arr []
  | some raw =>
    if raw = "" then .arr []
    else
      match J.parse raw with
      | some v => v
      | none => .arr []

/-- Source: `function saveOfflineAccounts(accounts)`. -/
def saveOfflineAccounts (J : JsonCodec) (accounts : JVal) (ls : LocalStorage) :
    LocalStorage :=
  ls.setItem OFFLINE_ACCOUNTS_KEY (J.stringify accounts)

/-- Commands sent over the bridge, `plugin:auth|<command>`, with their argument. -/
inductive Cmd where
  | login : Cmd
  | get_default_user : Cmd
  | set_default_user : String → Cmd
  | remove_user : String → Cmd
  | get_users : Cmd

/-- The native backend behind `invoke`: a state machine with one handler per
command.  A handler answers with a value or with a rejection reason.
`get_users` answers with a list, as its docstring
`@returns {Promise<Credential[]>}` says. -/
structure Backend (σ : Type) where
  login : σ → Except JVal JVal × σ
  get_default_user : σ → Except JVal JVal × σ
  set_default_user : String → σ → Except JVal JVal × σ
  remove_user : String → σ → Except JVal JVal × σ
  get_users : σ → Except JVal (List JVal) × σ

/-- Everything the module can observe or change: the local storage, the
backend's state, and the log of commands sent to the backend so far. -/
structure World (σ : Type) where
  storage : LocalStorage
  remote : σ
  calls : List Cmd

/-- Model of `await invoke(cmd, args)`: runs the handler, logs the command, and
turns a rejection into a thrown error. -/
def invoke {σ α : Type} (handler : σ → Except JVal α × σ) (cmd : Cmd) (w : World σ) :
    Except JsError α × World σ :=
  let r := handler w.remote
  (match r.1 with
   | .ok v => .ok v
   | .error e => .error (.rejected e),
   { w with remote := r.2, calls := w.calls ++ [cmd] })

/-- Property read `v.key` for a key that no built-in prototype defines
(`username`, `id`, `type`): `none` is `undefined`; reading from `null` throws. -/
def getProp (v : JVal) (key : String) : Except JsError (Option JVal) :=
  match v with
  | .null => .error .typeError
  | .obj fields => .ok (fields.lookup key)
  | _ => .ok none

/-- Strict equality `p === s` of a property value with a string. -/
def strictEqStr (p : Option JVal) (s : String) : Bool :=
  match p with
  | some (.str t) => t == s
  | _ => false

/-- Model of `accounts.some(acc => acc.username === username)` on the elements of
an array: stops at the first match. -/
def usernameTaken (username : String) : List JVal → Except JsError Bool
  | [] => .ok false
  | acc :: rest =>
    match getProp acc "username" with
    | .error e => .error e
    | .ok p => if strictEqStr p username then .ok true else usernameTaken username rest

/-- Model of `accounts.filter(acc => acc.id !== userId)` on the elements of an
array: the callback runs on every element, in order. -/
def withoutId (userId : String) : List JVal → Except JsError (List JVal)
  | [] => .ok []
  | acc :: rest =>
    match getProp acc "id" with
    | .error e => .error e
    | .ok p =>
      match withoutId userId rest with
      | .error e => .error e
      | .ok kept => .ok (if strictEqStr p userId then kept else acc :: kept)

/-- Spread `[...v]` of a JSON value: arrays give their elements, strings their
characters, anything else is not iterable. -/
def spread (v : JVal) : Except JsError (List JVal) :=
  match v with
  | .arr l => .ok l
  | .str s => .ok (s.data.map fun c => .str (String.singleton c))
  | _ => .error .typeError

/-- The object literal `{ id: OFFLINE_USER_PREFIX + username, username, type: 'offline' }`. -/
def accountRecord (username : String) : JVal :=
  .obj [("id", .str (OFFLINE_USER_PREFIX ++ username)),
        ("username", .str username),
        ("type", .str "offline")]

/-- Source: `export async function login()`. -/
def login {σ : Type} (B : Backend σ) (w : World σ) : Except JsError JVal × World σ :=
  invoke B.login .login w

/-- Source: `export async function offline_login(username)`.  The argument is a
string or missing (`none`: `undefined` or `null`). -/
def offline_login {σ : Type} (J : JsonCodec) (username : Option String) (w : World σ) :
    Except JsError JVal × World σ :=
  match username with
  | none => (.error (.error "Username required for offline account."), w)
  | some username =>
    if username = "" then
      (.error (.error "Username required for offline account."), w)
    else
      match getOfflineAccounts J w.storage with
      | .arr l =>
        match usernameTaken username l with
        | .error e => (.error e, w)
        | .ok true =>
          (.error (.error "Offline account with this username already exists."), w)
        | .ok false =>
          let account := accountRecord username
          let ls1 := saveOfflineAccounts J (.arr (l ++ [account])) w.storage
          let ls2 := ls1.setItem DEFAULT_USER_KEY (OFFLINE_USER_PREFIX ++ username)
          (.ok account, { w with storage := ls2 })
      | _ => (.error .typeError, w)

/-- Source: `export async function users()` (second definition). -/
def users {σ : Type} (J : JsonCodec) (B : Backend σ) (w : World σ) :
    Except JsError (List JVal) × World σ :=
  let r := invoke B.get_users .get_users w
  let backendUsers : List JVal :=
    match r.1 with
    | .ok l => l
    | .error _ => []
  let offlineUsers := getOfflineAccounts J r.2.storage
  match spread offlineUsers with
  | .ok l => (.ok (backendUsers ++ l), r.2)
  | .error e => (.error e, r.2)

/-- Source: `export async function set_default_user(userId)` (second definition). -/
def set_default_user {σ : Type} (B : Backend σ) (userId : String) (w : World σ) :
    Except JsError JVal × World σ :=
  if startsWith userId OFFLINE_USER_PREFIX then
    (.ok (.str userId), { w with storage := w.storage.setItem DEFAULT_USER_KEY userId })
  else
    invoke (B.set_default_user userId) (.set_default_user userId) w

/-- Source: `export async function get_default_user()` (second definition). -/
def get_default_user {σ : Type} (B : Backend σ) (w : World σ) :
    Except JsError JVal × World σ :=
  match w.storage.getItem DEFAULT_USER_KEY with
  | some offlineDefault =>
    if offlineDefault ≠ "" ∧ startsWith offlineDefault OFFLINE_USER_PREFIX then
      (.ok (.str offlineDefault), w)
    else
      invoke B.get_default_user .get_default_user w
  | none => invoke B.get_default_user .get_default_user w

/-- Source: `export async function remove_user(userId)` (second definition).
The result `none` is `undefined`. -/
def remove_user {σ : Type} (J : JsonCodec) (B : Backend σ) (userId : String) (w : World σ) :
    Except JsError (Option JVal) × World σ :=
  if startsWith userId OFFLINE_USER_PREFIX then
    match getOfflineAccounts J w.storage with
    | .arr l =>
      match withoutId userId l with
      | .error e => (.error e, w)
      | .ok kept =>
        let ls1 := saveOfflineAccounts J (.arr kept) w.storage
        let ls2 :=
          if ls1.getItem DEFAULT_USER_KEY = some userId then ls1.removeItem DEFAULT_USER_KEY
          else ls1
        (.ok none, { w with storage := ls2 })
    | _ => (.error .typeError, w)
  else
    let r := invoke (B.remove_user userId) (.remove_user userId) w
    (match r.1 with
     | .ok v => .ok (some v)
     | .error e => .error e,
     r.2)

/-- Source: `export function isLocalAccount(session)`, that is
`session?.type === 'local'`.  A missing session is `none`. -/
def isLocalAccount (session : Option JVal) : Bool :=
  match session with
  | none => false
  | some .null => false
  | some v =>
    match getProp v "type" with
    | .ok p => strictEqStr p "local"
    | .error _ => false

/-! ## Well-formed collections -/

/-- An offline account record `{ id, username, type }` with string members. -/
structure Account where
  id : String
  username : String
  type : String

/-- The JSON object of a record, members in the order the module writes them. -/
def Account.toJVal (a : Account) : JVal :=
  .obj [("id", .str a.id), ("username", .str a.username), ("type", .str a.type)]

/-- The record `offline_login(username)` creates. -/
def Account.offline (username : String) : Account :=
  { id := OFFLINE_USER_PREFIX ++ username, username := username, type := "offline" }

/-- A well-formed offline collection: a JSON array of account records. -/
def collection (accs : List Account) : JVal :=
  .arr (accs.map Account.toJVal)

/-- What the theorems assume of `JSON.stringify` and `JSON.parse`: a well-formed
collection is written as a non-empty text, and reading that text gives the
collection back. -/
def JsonCodec.Lawful (J : JsonCodec) : Prop :=
  ∀ accs : List Account,
    J.stringify (collection accs) ≠ "" ∧
    J.parse (J.stringify (collection accs)) = some (collection accs)

/-- What holds of the stored records: each is the record `offline_login` builds
for its username, and no username occurs twice. -/
def StoredInvariant (accs : List Account) : Prop :=
  (∀ a ∈ accs, a.id = OFFLINE_USER_PREFIX ++ a.username ∧ a.type = "offline") ∧
  (accs.map fun a => a.username).Nodup

/-- A world with empty local storage and no command sent yet. -/
def World.initial {σ : Type} (s : σ) : World σ :=
  { storage := LocalStorage.empty, remote := s, calls := [] }

/-- One call of `offline_login`, `remove_user` or `set_default_user`, with any
argument, whether it succeeds or throws. -/
inductive Step {σ : Type} (J : JsonCodec) (B : Backend σ) : World σ → World σ → Prop where
  | offline_login (username : Option String) (w : World σ) :
      Step J B w (offline_login J username w).2
  | remove_user (userId : String) (w : World σ) :
      Step J B w (remove_user J B userId w).2
  | set_default_user (userId : String) (w : World σ) :
      Step J B w (set_default_user B userId w).2

/-- Worlds reachable from empty storage by any sequence of such calls. -/
inductive Reachable {σ : Type} (J : JsonCodec) (B : Backend σ) : World σ → Prop where
  | initial (s : σ) : Reachable J B (World.initial s)
  | step {w w' : World σ} : Reachable J B w → Step J B w w' → Reachable J B w'

/-! ## A concrete codec and backend

`exampleJson` reads and writes the fragment of JSON this module itself
writes: an array of flat objects whose members are strings.  It shows that
`JsonCodec.Lawful` can be met, and lets the theorems be run on concrete inputs. -/

/-- Lexical tokens of the fragment. -/
inductive Tok where
  | lbracket : Tok
  | rbracket : Tok
  | lbrace : Tok
  | rbrace : Tok
  | comma : Tok
  | colon : Tok
  | str : String → Tok

/-- Escapes the quote and the backslash. -/
def escapeChars : List Char → List Char
  | [] => []
  | c :: cs =>
    if c = '"' ∨ c = '\\' then '\\' :: c :: escapeChars cs else c :: escapeChars cs

/-- The text of one token. -/
def Tok.render : Tok → List Char
  | .lbracket => ['[']
  | .rbracket => [']']
  | .lbrace => ['{']
  | .rbrace => ['}']
  | .comma => [',']
  | .colon => [':']
  | .str s => '"' :: (escapeChars s.data ++ ['"'])

/-- The text of a token sequence. -/
def renderToks : List Tok → List Char
  | [] => []
  | t :: ts => t.render ++ renderToks ts

/-- Where the lexer is: between tokens, inside a string (with the characters
read so far), or right after a backslash inside a string. -/
inductive LexMode where
  | plain : LexMode
  | inString : List Char → LexMode
  | escaped : List Char → LexMode

/-- The punctuation token a character stands for, if any. -/
def punct (c : Char) : Option Tok :=
  if c = '[' then some .lbracket
  else if c = ']' then some .rbracket
  else if c = '{' then some .lbrace
  else if c = '}' then some .rbrace
  else if c = ',' then some .comma
  else if c = ':' then some .colon
  else none

/-- Splits a text into tokens, one character at a time. -/
def lexer : LexMode → List Char → Option (List Tok)
  | .plain, [] => some []
  | .plain, c :: cs =>
    if c = '"' then lexer (.inString []) cs
    else
      match punct c with
      | some t => (lexer .plain cs).map (t :: ·)
      | none => none
  | .inString _, [] => none
  | .inString acc, c :: cs =>
    if c = '"' then (lexer .plain cs).map (Tok.str (String.mk acc) :: ·)
    else if c = '\\' then lexer (.escaped acc) cs
    else lexer (.inString (acc ++ [c])) cs
  | .escaped _, [] => none
  | .escaped acc, c :: cs => lexer (.inString (acc ++ [c])) cs

/-- Where the reader is in the grammar `[ {"k":"v",...}, ... ]`; `done` are the
elements and `ms` the members read so far. -/
inductive ReadState where
  | start : ReadState
  | elems (done : List JVal) : ReadState
  | elemNext (done : List JVal) : ReadState
  | elemMore (done : List JVal) : ReadState
  | members (done : List JVal) (ms : List (String × JVal)) : ReadState
  | afterKey (done : List JVal) (ms : List (String × JVal)) (key : String) : ReadState
  | value (done : List JVal) (ms : List (String × JVal)) (key : String) : ReadState
  | memberNext (done : List JVal) (ms : List (String × JVal)) : ReadState
  | memberMore (done : List JVal) (ms : List (String × JVal)) : ReadState
  | finished (v : JVal) : ReadState

/-- Reads a token sequence, one token at a time. -/
def readToks : ReadState → List Tok → Option JVal
  | .finished v, [] => some v
  | .start, .lbracket :: ts => readToks (.elems []) ts
  | .elems done, .rbracket :: ts => readToks (.finished (.arr done)) ts
  | .elems done, .lbrace :: ts => readToks (.members done []) ts
  | .elemNext done, .rbracket :: ts => readToks (.finished (.arr done)) ts
  | .elemNext done, .comma :: ts => readToks (.elemMore done) ts
  | .elemMore done, .lbrace :: ts => readToks (.members done []) ts
  | .members done ms, .rbrace :: ts => readToks (.elemNext (done ++ [.obj ms])) ts
  | .members done ms, .str k :: ts => readToks (.afterKey done ms k) ts
  | .afterKey done ms k, .colon :: ts => readToks (.value done ms k) ts
  | .value done ms k, .str v :: ts => readToks (.memberNext done (ms ++ [(k, .str v)])) ts
  | .memberNext done ms, .rbrace :: ts => readToks (.elemNext (done ++ [.obj ms])) ts
  | .memberNext done ms, .comma :: ts => readToks (.memberMore done ms) ts
  | .memberMore done ms, .str k :: ts => readToks (.afterKey done ms k) ts
  | _, _ => none

/-- Puts a separator between the items. -/
def sepToks (sep : Tok) : List (List Tok) → List Tok
  | [] => []
  | [x] => x
  | x :: y :: rest => x ++ sep :: sepToks sep (y :: rest)

/-- Tokens of one object member; a value that is not a string is outside the
fragment and written as the empty string. -/
def memberToks : String × JVal → List Tok
  | (k, .str v) => [.str k, .colon, .str v]
  | (k, _) => [.str k, .colon, .str ""]

/-- Tokens of an array element; an element that is not an object is outside the
fragment and written as the empty object. -/
def elemToks : JVal → List Tok
  | .obj ms => .lbrace :: (sepToks .comma (ms.map memberToks) ++ [.rbrace])
  | _ => [.lbrace, .rbrace]

/-- Tokens of a value; a value that is not an array is outside the fragment and
written as the empty array. -/
def valueToks : JVal → List Tok
  | .arr l => .lbracket :: (sepToks .comma (l.map elemToks) ++ [.rbracket])
  | _ => [.lbracket, .rbracket]

/-- The example codec. -/
def exampleJson : JsonCodec where
  parse := fun raw =>
    match lexer .plain raw.data with
    | some ts => readToks .start ts
    | none => none
  stringify := fun v => String.mk (renderToks (valueToks v))

/-- An example backend.  Its state is the remote default user; the account
list is fixed; `set_default_user` rejects the empty id. -/
def exampleBackend : Backend (Option String) where
  login := fun s => (.ok .null, s)
  get_default_user := fun s =>
    (.ok (match s with
          | some u => .str u
          | none => .null), s)
  set_default_user := fun u s =>
    if u = "" then (.error (.str "no such user"), s) else (.ok .null, some u)
  remove_user := fun u s => (.ok .null, if s = some u then none else s)
  get_users := fun s => (.ok [.obj [("id", .str "0b1c"), ("username", .str "Steve")]], s)

/-- A backend on which every command is rejected. -/
def offlineBackend : Backend Unit where
  login := fun s => (.error (.str "unreachable"), s)
  get_default_user := fun s => (.error (.str "unreachable"), s)
  set_default_user := fun _ s => (.error (.str "unreachable"), s)
  remove_user := fun _ s => (.error (.str "unreachable"), s)
  get_users := fun s => (.error (.str "unreachable"), s)

/-- The world after `offline_login("bob")` on empty storage, with the example
codec; the backend has no default user. -/
def bobWorld : World (Option String) :=
  (offline_login exampleJson (some "bob") (World.initial none)).2

/-- The world after `offline_login("bob")`, a second `offline_login("bob")`
(which fails), `set_default_user("0b1c")` and `offline_login("alice")`, from
empty storage, with the example codec and backend. -/
def bobAliceWorld : World (Option String) :=
  (offline_login exampleJson (some "alice")
    (set_default_user exampleBackend "0b1c"
      (offline_login exampleJson (some "bob") bobWorld).2).2).2

/-! ## The example codec is lawful -/

theorem lexer_inString (cs : List Char) :
    ∀ (acc rest : List Char),
      lexer (.inString acc) (escapeChars cs ++ '"' :: rest) =
        (lexer .plain rest).map (Tok.str (String.mk (acc ++ cs)) :: ·) := by
  induction cs with
  | nil => intro acc rest; simp [escapeChars, lexer]
  | cons c cs ih =>
    intro acc rest
    by_cases h : c = '"' ∨ c = '\\'
    · rcases h with h | h
      · subst h
        simp [escapeChars, lexer, ih]
      · subst h
        simp [escapeChars, lexer, ih]
    · have h1 : c ≠ '"' := fun e => h (Or.inl e)
      have h2 : c ≠ '\\' := fun e => h (Or.inr e)
      simp [escapeChars, lexer, ih, h1, h2]

theorem lexer_render (t : Tok) (rest : List Char) :
    lexer .plain (t.render ++ rest) = (lexer .plain rest).map (t :: ·) := by
  cases t <;> simp [Tok.render, lexer, punct, lexer_inString]

theorem lexer_renderToks (ts : List Tok) : lexer .plain (renderToks ts) = some ts := by
  induction ts with
  | nil => simp [renderToks, lexer]
  | cons t ts ih => simp [renderToks, lexer_render, ih]

theorem readToks_account (a : Account) (done : List JVal) (rest : List Tok) :
    readToks (.elemMore done) (elemToks a.toJVal ++ rest) =
      readToks (.elemNext (done ++ [a.toJVal])) rest := by
  simp [Account.toJVal, elemToks, memberToks, sepToks, readToks]

theorem readToks_accounts (accs : List Account) :
    ∀ (a : Account) (done : List JVal),
      readToks (.elemMore done)
          (sepToks .comma ((a :: accs).map fun b => elemToks b.toJVal) ++ [.rbracket]) =
        some (.arr (done ++ (a :: accs).map Account.toJVal)) := by
  induction accs with
  | nil =>
    intro a done
    simp only [List.map_cons, List.map_nil, sepToks]
    rw [readToks_account]
    simp only [readToks]
  | cons b accs ih =>
    intro a done
    simp only [List.map_cons, sepToks, List.append_assoc, readToks_account]
    simp only [List.cons_append, readToks]
    have h := ih b (done ++ [a.toJVal])
    simp only [List.map_cons, List.append_assoc, List.singleton_append] at h
    exact h

theorem readToks_collection (accs : List Account) :
    readToks .start (valueToks (collection accs)) = some (collection accs) := by
  cases accs with
  | nil => simp [collection, valueToks, sepToks, readToks]
  | cons a accs =>
    have h := readToks_accounts accs a []
    simp only [List.nil_append] at h
    simp only [collection, valueToks, List.map_map, readToks]
    -- the first element follows the opening bracket directly
    have h2 : ∀ ts, readToks (.elems []) (elemToks a.toJVal ++ ts) =
        readToks (.elemMore []) (elemToks a.toJVal ++ ts) := by
      intro ts
      simp [Account.toJVal, elemToks, readToks]
    cases accs with
    | nil =>
      simp only [List.map_cons, List.map_nil, sepToks, Function.comp_apply] at h ⊢
      rw [h2]
      exact h
    | cons b accs =>
      simp only [List.map_cons, sepToks, List.append_assoc, Function.comp_apply] at h ⊢
      rw [h2]
      exact h

theorem exampleJson_lawful : exampleJson.Lawful := by
  intro accs
  constructor
  · intro h
    have h2 := congrArg String.data h
    cases accs <;> simp [exampleJson, collection, valueToks, renderToks, Tok.render] at h2
  · simp [exampleJson, lexer_renderToks, readToks_collection]

/-! ## Lemmas on storage, records and prefixes -/

theorem default_key_ne_accounts_key : DEFAULT_USER_KEY ≠ OFFLINE_ACCOUNTS_KEY := by
  decide

theorem getItem_setItem_same (ls : LocalStorage) (k v : String) :
    (ls.setItem k v).getItem k = some v := by
  simp [LocalStorage.getItem, LocalStorage.setItem]

theorem getItem_setItem_other (ls : LocalStorage) (k k' v : String) (h : k' ≠ k) :
    (ls.setItem k v).getItem k' = ls.getItem k' := by
  simp [LocalStorage.getItem, LocalStorage.setItem, h]

theorem getItem_removeItem_same (ls : LocalStorage) (k : String) :
    (ls.removeItem k).getItem k = none := by
  simp [LocalStorage.getItem, LocalStorage.removeItem]

theorem getItem_removeItem_other (ls : LocalStorage) (k k' : String) (h : k' ≠ k) :
    (ls.removeItem k).getItem k' = ls.getItem k' := by
  simp [LocalStorage.getItem, LocalStorage.removeItem, h]

theorem getOfflineAccounts_congr (J : JsonCodec) (ls ls' : LocalStorage)
    (h : ls'.getItem OFFLINE_ACCOUNTS_KEY = ls.getItem OFFLINE_ACCOUNTS_KEY) :
    getOfflineAccounts J ls' = getOfflineAccounts J ls := by
  simp [getOfflineAccounts, h]

theorem getOfflineAccounts_setItem_default (J : JsonCodec) (ls : LocalStorage) (v : String) :
    getOfflineAccounts J (ls.setItem DEFAULT_USER_KEY v) = getOfflineAccounts J ls :=
  getOfflineAccounts_congr J _ _
    (getItem_setItem_other ls _ _ v (Ne.symm default_key_ne_accounts_key))

theorem getOfflineAccounts_removeItem_default (J : JsonCodec) (ls : LocalStorage) :
    getOfflineAccounts J (ls.removeItem DEFAULT_USER_KEY) = getOfflineAccounts J ls :=
  getOfflineAccounts_congr J _ _
    (getItem_removeItem_other ls _ _ (Ne.symm default_key_ne_accounts_key))

theorem getOfflineAccounts_save (J : JsonCodec) (hJ : J.Lawful) (ls : LocalStorage)
    (accs : List Account) :
    getOfflineAccounts J (saveOfflineAccounts J (collection accs) ls) = collection accs := by
  have h := hJ accs
  simp [getOfflineAccounts, saveOfflineAccounts, getItem_setItem_same, h.1, h.2]

theorem startsWith_offline (username : String) :
    startsWith (OFFLINE_USER_PREFIX ++ username) OFFLINE_USER_PREFIX = true := by
  simp [startsWith]

theorem getProp_username (a : Account) :
    getProp a.toJVal "username" = .ok (some (.str a.username)) := by
  simp [getProp, Account.toJVal, List.lookup]

theorem getProp_id (a : Account) : getProp a.toJVal "id" = .ok (some (.str a.id)) := by
  simp [getProp, Account.toJVal, List.lookup]

theorem getProp_type (a : Account) : getProp a.toJVal "type" = .ok (some (.str a.type)) := by
  simp [getProp, Account.toJVal, List.lookup]

theorem usernameTaken_collection (username : String) (accs : List Account) :
    usernameTaken username (accs.map Account.toJVal) =
      .ok (accs.any fun a => a.username == username) := by
  induction accs with
  | nil => simp [usernameTaken]
  | cons a accs ih =>
    simp only [List.map_cons, usernameTaken, getProp_username, strictEqStr, ih, List.any_cons]
    by_cases h : a.username = username <;> simp [h]

theorem withoutId_collection (userId : String) (accs : List Account) :
    withoutId userId (accs.map Account.toJVal) =
      .ok ((accs.filter fun a => decide (a.id ≠ userId)).map Account.toJVal) := by
  induction accs with
  | nil => simp [withoutId]
  | cons a accs ih =>
    simp only [List.map_cons, withoutId, getProp_id, strictEqStr, ih]
    by_cases h : a.id = userId <;> simp [h, List.filter_cons]

theorem accountRecord_eq (username : String) :
    accountRecord username = (Account.offline username).toJVal := rfl

/-! ## The operations on a well-formed collection -/

theorem any_username_false {username : String} {accs : List Account}
    (h : ∀ a ∈ accs, a.username ≠ username) :
    (accs.any fun a => a.username == username) = false := by
  simp only [List.any_eq_false, beq_iff_eq]
  exact fun a ha => h a ha

theorem any_username_true {username : String} {accs : List Account}
    (h : ∃ a ∈ accs, a.username = username) :
    (accs.any fun a => a.username == username) = true := by
  simp only [List.any_eq_true, beq_iff_eq]
  exact h

theorem offline_login_fresh {σ : Type} (J : JsonCodec) (w : World σ) (accs : List Account)
    (username : String) (hwf : getOfflineAccounts J w.storage = collection accs)
    (hne : username ≠ "") (hfresh : ∀ a ∈ accs, a.username ≠ username) :
    offline_login J (some username) w =
      (.ok (accountRecord username),
       { w with storage :=
          (saveOfflineAccounts J (collection (accs ++ [Account.offline username]))
            w.storage).setItem DEFAULT_USER_KEY (OFFLINE_USER_PREFIX ++ username) }) := by
  simp only [offline_login, hne, if_false, hwf, collection, usernameTaken_collection,
    any_username_false hfresh, List.map_append, List.map_cons, List.map_nil, accountRecord_eq]

theorem offline_login_taken {σ : Type} (J : JsonCodec) (w : World σ) (accs : List Account)
    (username : String) (hwf : getOfflineAccounts J w.storage = collection accs)
    (hne : username ≠ "") (htaken : ∃ a ∈ accs, a.username = username) :
    offline_login J (some username) w =
      (.error (.error "Offline account with this username already exists."), w) := by
  simp only [offline_login, hne, if_false, hwf, collection, usernameTaken_collection,
    any_username_true htaken]

theorem offline_login_error_world {σ : Type} (J : JsonCodec) (username : Option String)
    (w : World σ) (e : JsError) (h : (offline_login J username w).1 = .error e) :
    (offline_login J username w).2 = w := by
  unfold offline_login at h ⊢
  split
  · rfl
  · split
    · rfl
    · split
      · split
        · rfl
        · rfl
        · rename_i hne _ l hl _ ht
          simp [hne, hl, ht] at h
      · rfl

theorem remove_user_offline {σ : Type} (J : JsonCodec) (B : Backend σ) (w : World σ)
    (accs : List Account) (userId : String)
    (hwf : getOfflineAccounts J w.storage = collection accs)
    (hpre : startsWith userId OFFLINE_USER_PREFIX = true) :
    let ls1 := saveOfflineAccounts J
      (collection (accs.filter fun a => decide (a.id ≠ userId))) w.storage
    remove_user J B userId w =
      (.ok none,
       { w with storage := if ls1.getItem DEFAULT_USER_KEY = some userId
                           then ls1.removeItem DEFAULT_USER_KEY else ls1 }) := by
  intro ls1
  simp only [remove_user, hpre, if_true, hwf, collection, withoutId_collection, ls1]

theorem getItem_default_save (J : JsonCodec) (v : JVal) (ls : LocalStorage) :
    (saveOfflineAccounts J v ls).getItem DEFAULT_USER_KEY = ls.getItem DEFAULT_USER_KEY :=
  getItem_setItem_other ls _ _ _ default_key_ne_accounts_key

theorem users_collection {σ : Type} (J : JsonCodec) (B : Backend σ) (w : World σ)
    (accs : List Account) (hwf : getOfflineAccounts J w.storage = collection accs) :
    users J B w =
      (.ok ((match (B.get_users w.remote).1 with
             | .ok l => l
             | .error _ => []) ++ accs.map Account.toJVal),
       (invoke B.get_users .get_users w).2) := by
  have hst : (invoke B.get_users .get_users w).2.storage = w.storage := rfl
  simp only [users, hst, hwf, collection, spread]
  cases h : (B.get_users w.remote).1 <;> simp [invoke, h]

theorem stored_after_login {σ : Type} (J : JsonCodec) (hJ : J.Lawful) (w : World σ)
    (accs : List Account) (username : String)
    (hwf : getOfflineAccounts J w.storage = collection accs)
    (hne : username ≠ "") (hfresh : ∀ a ∈ accs, a.username ≠ username) :
    getOfflineAccounts J (offline_login J (some username) w).2.storage =
      collection (accs ++ [Account.offline username]) := by
  rw [offline_login_fresh J w accs username hwf hne hfresh]
  simp only [getOfflineAccounts_setItem_default, getOfflineAccounts_save J hJ]

theorem bobWorld_stored :
    getOfflineAccounts exampleJson bobWorld.storage = collection [Account.offline "bob"] :=
  stored_after_login exampleJson exampleJson_lawful (World.initial none) [] "bob" rfl
    (by decide) (by simp)

theorem bobWorld_default : bobWorld.storage.getItem "default_user" = some "offline-bob" :=
  rfl

/-! ## The claims -/

/-- C1: on a well-formed (or absent) offline collection in which no record carries
the non-empty `username`, `offline_login(username)` returns exactly the record
`{id: "offline-" + username, username, type: "offline"}`, the stored collection
afterwards is the previous one with that record appended at the end, and the
next `users()` succeeds and contains the record for every backend, whether its
`get_users` answers or rejects. -/
theorem offline_login_creates_account {σ : Type} (J : JsonCodec) (hJ : J.Lawful)
    (w : World σ) (accs : List Account) (username : String)
    (hwf : getOfflineAccounts J w.storage = collection accs)
    (hne : username ≠ "") (hfresh : ∀ a ∈ accs, a.username ≠ username) :
    (offline_login J (some username) w).1 =
        .ok (.obj [("id", .str ("offline-" ++ username)), ("username", .str username),
                   ("type", .str "offline")]) ∧
    getOfflineAccounts J (offline_login J (some username) w).2.storage =
        collection (accs ++
          [{ id := "offline-" ++ username, username := username, type := "offline" }]) ∧
    ∀ B : Backend σ, ∃ l : List JVal,
      (users J B (offline_login J (some username) w).2).1 = .ok l ∧
      JVal.obj [("id", .str ("offline-" ++ username)), ("username", .str username),
                ("type", .str "offline")] ∈ l := by
  have hst := stored_after_login J hJ w accs username hwf hne hfresh
  refine ⟨?_, hst, ?_⟩
  · rw [offline_login_fresh J w accs username hwf hne hfresh]
    rfl
  · intro B
    rw [users_collection J B _ _ hst]
    refine ⟨_, rfl, ?_⟩
    simp only [List.map_append, List.map_cons, List.map_nil, List.mem_append,
      List.mem_singleton]
    exact Or.inr (Or.inr rfl)

/-- Witness for C1: logging in `"alice"` in the world that already holds
`"bob"`, with the example codec. -/
theorem offline_login_creates_account_witness :
    exampleJson.Lawful ∧
    getOfflineAccounts exampleJson bobWorld.storage = collection [Account.offline "bob"] ∧
    "alice" ≠ "" ∧
    (∀ a ∈ [Account.offline "bob"], a.username ≠ "alice") ∧
    (offline_login exampleJson (some "alice") bobWorld).1 =
        .ok (.obj [("id", .str ("offline-" ++ "alice")), ("username", .str "alice"),
                   ("type", .str "offline")]) ∧
    getOfflineAccounts exampleJson (offline_login exampleJson (some "alice") bobWorld).2.storage =
        collection ([Account.offline "bob"] ++
          [{ id := "offline-" ++ "alice", username := "alice", type := "offline" }]) ∧
    ∀ B : Backend (Option String), ∃ l : List JVal,
      (users exampleJson B (offline_login exampleJson (some "alice") bobWorld).2).1 = .ok l ∧
      JVal.obj [("id", .str ("offline-" ++ "alice")), ("username", .str "alice"),
                ("type", .str "offline")] ∈ l :=
  have hfresh : ∀ a ∈ [Account.offline "bob"], a.username ≠ "alice" := by
    simp [Account.offline]
  ⟨exampleJson_lawful, bobWorld_stored, by decide, hfresh,
    offline_login_creates_account exampleJson exampleJson_lawful bobWorld
      [Account.offline "bob"] "alice" bobWorld_stored (by decide) hfresh⟩

/-- C2: on a well-formed offline collection, `offline_login(username)` fails
exactly when the username is missing or empty (message "Username required for
offline account.") or a stored record already has it (message "Offline account
with this username already exists."); a failing call leaves the world, hence
both storage slots, as it was; and after a first successful login of a name a
second login of it fails with the second message and the stored collection
holds exactly one record of that name. -/
theorem offline_login_fails_iff {σ : Type} (J : JsonCodec) (hJ : J.Lawful)
    (w : World σ) (accs : List Account) (username : Option String)
    (hwf : getOfflineAccounts J w.storage = collection accs) :
    ((∃ e, (offline_login J username w).1 = .error e) ↔
      (username = none ∨ username = some "" ∨ ∃ a ∈ accs, some a.username = username)) ∧
    ((username = none ∨ username = some "") →
      (offline_login J username w).1 =
        .error (.error "Username required for offline account.")) ∧
    ((username ≠ none ∧ username ≠ some "" ∧ ∃ a ∈ accs, some a.username = username) →
      (offline_login J username w).1 =
        .error (.error "Offline account with this username already exists.")) ∧
    (∀ e, (offline_login J username w).1 = .error e →
      (offline_login J username w).2 = w ∧
      (offline_login J username w).2.storage.getItem "offline_accounts" =
        w.storage.getItem "offline_accounts" ∧
      (offline_login J username w).2.storage.getItem "default_user" =
        w.storage.getItem "default_user") ∧
    (∀ u, username = some u → u ≠ "" → (∀ a ∈ accs, a.username ≠ u) →
      ∃ stored : List Account,
        (offline_login J (some u) (offline_login J (some u) w).2).1 =
          .error (.error "Offline account with this username already exists.") ∧
        getOfflineAccounts J
          (offline_login J (some u) (offline_login J (some u) w).2).2.storage =
            collection stored ∧
        (stored.filter fun a => decide (a.username = u)).length = 1) := by
  have hmissing : (username = none ∨ username = some "") →
      (offline_login J username w).1 =
        .error (.error "Username required for offline account.") := by
    rintro (h | h) <;> subst h <;> simp [offline_login]
  have htaken : (username ≠ none ∧ username ≠ some "" ∧
        ∃ a ∈ accs, some a.username = username) →
      (offline_login J username w).1 =
        .error (.error "Offline account with this username already exists.") := by
    rintro ⟨_, h2, a, ha, rfl⟩
    have hne : a.username ≠ "" := fun e => h2 (by rw [e])
    rw [offline_login_taken J w accs a.username hwf hne ⟨a, ha, rfl⟩]
  refine ⟨⟨?_, ?_⟩, hmissing, htaken, ?_, ?_⟩
  · rintro ⟨e, he⟩
    cases username with
    | none => exact Or.inl rfl
    | some u =>
      by_cases hu : u = ""
      · exact Or.inr (Or.inl (by rw [hu]))
      · by_cases hex : ∃ a ∈ accs, a.username = u
        · obtain ⟨a, ha, rfl⟩ := hex
          exact Or.inr (Or.inr ⟨a, ha, rfl⟩)
        · have hfresh : ∀ a ∈ accs, a.username ≠ u := fun a ha e => hex ⟨a, ha, e⟩
          rw [offline_login_fresh J w accs u hwf hu hfresh] at he
          cases he
  · rintro (h | h | h)
    · exact ⟨_, hmissing (Or.inl h)⟩
    · exact ⟨_, hmissing (Or.inr h)⟩
    · by_cases h0 : username = none ∨ username = some ""
      · exact ⟨_, hmissing h0⟩
      · exact ⟨_, htaken ⟨fun e => h0 (Or.inl e), fun e => h0 (Or.inr e), h⟩⟩
  · intro e he
    have hw := offline_login_error_world J username w e he
    refine ⟨hw, ?_, ?_⟩ <;> rw [hw]
  · intro u _ hu hfresh
    have hst := stored_after_login J hJ w accs u hwf hu hfresh
    have hin : ∃ a ∈ accs ++ [Account.offline u], a.username = u :=
      ⟨Account.offline u, by simp, rfl⟩
    refine ⟨accs ++ [Account.offline u], ?_, ?_, ?_⟩
    · rw [offline_login_taken J _ _ u hst hu hin]
    · rw [offline_login_taken J _ _ u hst hu hin]
      exact hst
    · have h0 : (accs.filter fun a => decide (a.username = u)) = [] := by
        simp only [List.filter_eq_nil_iff, decide_eq_true_eq]
        exact fun a ha => hfresh a ha
      simp [List.filter_append, h0, Account.offline]

/-- Witness for C2: in the world that holds `"bob"`, a login without username
and a second login of `"bob"` fail with their messages and change nothing; a
login of `"alice"` followed by another one leaves one `"alice"` record. -/
theorem offline_login_fails_iff_witness :
    exampleJson.Lawful ∧
    getOfflineAccounts exampleJson bobWorld.storage = collection [Account.offline "bob"] ∧
    (offline_login exampleJson none bobWorld).1 =
      .error (.error "Username required for offline account.") ∧
    (offline_login exampleJson (some "bob") bobWorld).1 =
      .error (.error "Offline account with this username already exists.") ∧
    (offline_login exampleJson (some "bob") bobWorld).2 = bobWorld ∧
    ∃ stored : List Account,
      (offline_login exampleJson (some "alice")
        (offline_login exampleJson (some "alice") bobWorld).2).1 =
          .error (.error "Offline account with this username already exists.") ∧
      getOfflineAccounts exampleJson
        (offline_login exampleJson (some "alice")
          (offline_login exampleJson (some "alice") bobWorld).2).2.storage =
            collection stored ∧
      (stored.filter fun a => decide (a.username = "alice")).length = 1 :=
  have hbob := offline_login_fails_iff exampleJson exampleJson_lawful bobWorld
    [Account.offline "bob"] (some "bob") bobWorld_stored
  have htaken : (offline_login exampleJson (some "bob") bobWorld).1 =
      .error (.error "Offline account with this username already exists.") :=
    hbob.2.2.1 ⟨by simp, by simp, Account.offline "bob", by simp, rfl⟩
  ⟨exampleJson_lawful, bobWorld_stored,
    (offline_login_fails_iff exampleJson exampleJson_lawful bobWorld
      [Account.offline "bob"] none bobWorld_stored).2.1 (Or.inl rfl),
    htaken,
    (hbob.2.2.2.1 _ htaken).1,
    (offline_login_fails_iff exampleJson exampleJson_lawful bobWorld
      [Account.offline "bob"] (some "alice") bobWorld_stored).2.2.2.2 "alice" rfl
      (by decide) (by simp [Account.offline])⟩

theorem offline_login_ok_default {σ : Type} (J : JsonCodec) (username : Option String)
    (w : World σ) (account : JVal) (hok : (offline_login J username w).1 = .ok account) :
    ∃ u, username = some u ∧
      (offline_login J username w).2.storage.getItem DEFAULT_USER_KEY =
        some (OFFLINE_USER_PREFIX ++ u) := by
  cases username with
  | none => simp [offline_login] at hok
  | some u =>
    refine ⟨u, rfl, ?_⟩
    by_cases hu : u = ""
    · simp [offline_login, hu] at hok
    · cases hacc : getOfflineAccounts J w.storage with
      | arr l =>
        cases ht : usernameTaken u l with
        | error e => simp [offline_login, hu, hacc, ht] at hok
        | ok b =>
          cases b with
          | true => simp [offline_login, hu, hacc, ht] at hok
          | false =>
            simp only [offline_login, hu, if_false, hacc, ht]
            exact getItem_setItem_same _ _ _
      | _ => simp [offline_login, hu, hacc] at hok

theorem get_default_user_offline {σ : Type} (B : Backend σ) (w : World σ) (username : String)
    (h : w.storage.getItem DEFAULT_USER_KEY = some (OFFLINE_USER_PREFIX ++ username)) :
    get_default_user B w = (.ok (.str (OFFLINE_USER_PREFIX ++ username)), w) := by
  have hne : OFFLINE_USER_PREFIX ++ username ≠ "" := by
    intro e
    have := congrArg String.length e
    simp [OFFLINE_USER_PREFIX] at this
    exact absurd this.1 (by decide)
  simp [get_default_user, h, hne, startsWith_offline]

/-- C3: whenever `offline_login(username)` succeeds, from any storage state, the
default-user pointer afterwards is `"offline-" + username`, and the next
`get_default_user()` returns that id and leaves the world as it is: nothing is
sent to the backend, whose state and behaviour do not matter. -/
theorem offline_login_sets_default {σ : Type} (J : JsonCodec) (B : Backend σ)
    (w : World σ) (username : Option String) (account : JVal)
    (hok : (offline_login J username w).1 = .ok account) :
    ∃ u, username = some u ∧
      (offline_login J username w).2.storage.getItem "default_user" =
        some ("offline-" ++ u) ∧
      get_default_user B (offline_login J username w).2 =
        (.ok (.str ("offline-" ++ u)), (offline_login J username w).2) ∧
      (get_default_user B (offline_login J username w).2).2.calls = w.calls ∧
      (get_default_user B (offline_login J username w).2).2.remote = w.remote := by
  obtain ⟨u, hu, hptr⟩ := offline_login_ok_default J username w account hok
  have hget := get_default_user_offline B _ u hptr
  refine ⟨u, hu, hptr, hget, ?_, ?_⟩
  · rw [hget]
    subst hu
    unfold offline_login
    repeat' split
    all_goals rfl
  · rw [hget]
    subst hu
    unfold offline_login
    repeat' split
    all_goals rfl

/-- Witness for C3: `offline_login("bob")` on empty storage, then
`get_default_user()` against a backend that rejects every command. -/
theorem offline_login_sets_default_witness :
    (offline_login exampleJson (some "bob") (World.initial ())).1 =
      .ok (accountRecord "bob") ∧
    ∃ u, some "bob" = some u ∧
      (offline_login exampleJson (some "bob") (World.initial ())).2.storage.getItem
          "default_user" = some ("offline-" ++ u) ∧
      get_default_user offlineBackend
          (offline_login exampleJson (some "bob") (World.initial ())).2 =
        (.ok (.str ("offline-" ++ u)),
          (offline_login exampleJson (some "bob") (World.initial ())).2) ∧
      (get_default_user offlineBackend
          (offline_login exampleJson (some "bob") (World.initial ())).2).2.calls =
        (World.initial ()).calls ∧
      (get_default_user offlineBackend
          (offline_login exampleJson (some "bob") (World.initial ())).2).2.remote =
        (World.initial ()).remote :=
  ⟨rfl, offline_login_sets_default exampleJson offlineBackend (World.initial ()) (some "bob")
    (accountRecord "bob") rfl⟩

/-- C4: on a well-formed offline collection, `users()` never throws and returns
the backend's account list followed by the offline collection, each in its own
order; when the backend's `get_users` rejects, the result is the offline
collection alone. -/
theorem users_merges_remote_then_offline {σ : Type} (J : JsonCodec) (B : Backend σ)
    (w : World σ) (accs : List Account)
    (hwf : getOfflineAccounts J w.storage = collection accs) :
    (∀ remoteUsers, (B.get_users w.remote).1 = .ok remoteUsers →
      (users J B w).1 = .ok (remoteUsers ++ accs.map Account.toJVal)) ∧
    (∀ reason, (B.get_users w.remote).1 = .error reason →
      (users J B w).1 = .ok (accs.map Account.toJVal)) ∧
    (∃ l, (users J B w).1 = .ok l) := by
  rw [users_collection J B w accs hwf]
  refine ⟨?_, ?_, _, rfl⟩
  · intro l h
    simp [h]
  · intro e h
    simp [h]

/-- Witness for C4: the world that holds `"bob"`, with the example backend,
whose `get_users` answers with one account. -/
theorem users_merges_remote_then_offline_witness :
    getOfflineAccounts exampleJson bobWorld.storage = collection [Account.offline "bob"] ∧
    (exampleBackend.get_users bobWorld.remote).1 =
      .ok [.obj [("id", .str "0b1c"), ("username", .str "Steve")]] ∧
    (users exampleJson exampleBackend bobWorld).1 =
      .ok ([.obj [("id", .str "0b1c"), ("username", .str "Steve")]] ++
        [Account.offline "bob"].map Account.toJVal) :=
  ⟨bobWorld_stored, rfl,
    (users_merges_remote_then_offline exampleJson exampleBackend bobWorld
      [Account.offline "bob"] bobWorld_stored).1 _ rfl⟩

/-! ### `set_default_user` followed by `get_default_user` -/

theorem ne_empty_of_startsWith_offline (userId : String)
    (hpre : startsWith userId OFFLINE_USER_PREFIX = true) : userId ≠ "" := by
  intro e
  subst e
  revert hpre
  decide

/-- For an offline id, `set_default_user` then `get_default_user` gives the id
back, and nothing is sent to the backend. -/
theorem set_get_default_user_offline {σ : Type} (B : Backend σ) (w : World σ)
    (userId : String) (hpre : startsWith userId OFFLINE_USER_PREFIX = true) :
    (set_default_user B userId w).1 = .ok (.str userId) ∧
    get_default_user B (set_default_user B userId w).2 =
      (.ok (.str userId), (set_default_user B userId w).2) ∧
    (set_default_user B userId w).2.calls = w.calls := by
  have hne := ne_empty_of_startsWith_offline userId hpre
  simp [set_default_user, get_default_user, hpre, hne, getItem_setItem_same]

/-- For a remote id, `set_default_user` leaves the local storage as it is, and
the following `get_default_user` still returns a stored offline pointer. -/
theorem set_default_user_remote_keeps_pointer {σ : Type} (B : Backend σ) (w : World σ)
    (userId pointer : String) (hpre : startsWith userId OFFLINE_USER_PREFIX = false)
    (hptr : w.storage.getItem DEFAULT_USER_KEY = some pointer)
    (hoff : startsWith pointer OFFLINE_USER_PREFIX = true) :
    (set_default_user B userId w).2.storage = w.storage ∧
    (get_default_user B (set_default_user B userId w).2).1 = .ok (.str pointer) := by
  have hne := ne_empty_of_startsWith_offline pointer hoff
  have hst : (set_default_user B userId w).2.storage = w.storage := by
    simp [set_default_user, hpre, invoke]
  refine ⟨hst, ?_⟩
  simp [get_default_user, hst, hptr, hne, hoff]

/-- For a remote id and no offline pointer in storage, `set_default_user` then
`get_default_user` gives the id back, provided the backend answers its
`get_default_user` with the id it was last given. -/
theorem set_get_default_user_remote {σ : Type} (B : Backend σ) (w : World σ)
    (userId : String) (hpre : startsWith userId OFFLINE_USER_PREFIX = false)
    (hptr : ∀ pointer, w.storage.getItem DEFAULT_USER_KEY = some pointer →
      startsWith pointer OFFLINE_USER_PREFIX = false)
    (hB : (B.get_default_user (B.set_default_user userId w.remote).2).1 =
      .ok (.str userId)) :
    (get_default_user B (set_default_user B userId w).2).1 = .ok (.str userId) := by
  have hst : (set_default_user B userId w).2.storage = w.storage := by
    simp [set_default_user, hpre, invoke]
  have hrem : (set_default_user B userId w).2.remote =
      (B.set_default_user userId w.remote).2 := by
    simp [set_default_user, hpre, invoke]
  have hinv : (invoke B.get_default_user .get_default_user
      (set_default_user B userId w).2).1 = .ok (.str userId) := by
    simp only [invoke, hrem, hB]
  unfold get_default_user
  rw [hst]
  cases h : w.storage.getItem DEFAULT_USER_KEY with
  | none => exact hinv
  | some pointer =>
    simp only [hptr pointer h, Bool.false_eq_true, and_false, if_false]
    exact hinv

/-- C5 fails on the code: after `offline_login("bob")` on empty storage,
`set_default_user("0b1c")` for a remote id completes successfully and the
backend records `"0b1c"` as its default user, yet the next `get_default_user()`
returns `"offline-bob"`, the offline pointer that the remote branch of
`set_default_user` left in place. -/
theorem set_default_user_remote_shadowed (J : JsonCodec) :
    (set_default_user exampleBackend "0b1c"
        (offline_login J (some "bob") (World.initial none)).2).1 = .ok .null ∧
    (exampleBackend.get_default_user
        (set_default_user exampleBackend "0b1c"
          (offline_login J (some "bob") (World.initial none)).2).2.remote).1 =
      .ok (.str "0b1c") ∧
    (get_default_user exampleBackend
        (set_default_user exampleBackend "0b1c"
          (offline_login J (some "bob") (World.initial none)).2).2).1 =
      .ok (.str "offline-bob") := by
  refine ⟨rfl, rfl, rfl⟩

theorem stored_after_remove {σ : Type} (J : JsonCodec) (hJ : J.Lawful) (B : Backend σ)
    (w : World σ) (accs : List Account) (userId : String)
    (hwf : getOfflineAccounts J w.storage = collection accs)
    (hpre : startsWith userId OFFLINE_USER_PREFIX = true) :
    getOfflineAccounts J (remove_user J B userId w).2.storage =
      collection (accs.filter fun a => decide (a.id ≠ userId)) := by
  have h := remove_user_offline J B w accs userId hwf hpre
  simp only at h
  rw [h]
  simp only
  split
  · rw [getOfflineAccounts_removeItem_default, getOfflineAccounts_save J hJ]
  · rw [getOfflineAccounts_save J hJ]

theorem default_after_remove {σ : Type} (J : JsonCodec) (B : Backend σ)
    (w : World σ) (accs : List Account) (userId : String)
    (hwf : getOfflineAccounts J w.storage = collection accs)
    (hpre : startsWith userId OFFLINE_USER_PREFIX = true) :
    (remove_user J B userId w).2.storage.getItem DEFAULT_USER_KEY =
      if w.storage.getItem DEFAULT_USER_KEY = some userId then none
      else w.storage.getItem DEFAULT_USER_KEY := by
  have h := remove_user_offline J B w accs userId hwf hpre
  simp only at h
  rw [h]
  simp only [getItem_default_save]
  split
  · exact getItem_removeItem_same _ _
  · exact getItem_default_save _ _ _

theorem get_default_user_delegates {σ : Type} (B : Backend σ) (w : World σ)
    (h : w.storage.getItem DEFAULT_USER_KEY = none) :
    get_default_user B w = invoke B.get_default_user .get_default_user w := by
  simp [get_default_user, h]

/-- C6: on a well-formed offline collection and for an offline-prefixed id `u`,
`remove_user(u)` deletes the default-user pointer exactly when the pointer was
`u`, and otherwise leaves it as it was; when `u` was the default, the stored
collection afterwards has no record with id `u`, the pointer is absent, and the
next `get_default_user()` is the backend's `get_default_user`: one command is
sent and its answer (value or rejection) is the result. -/
theorem remove_user_clears_default_iff {σ : Type} (J : JsonCodec) (hJ : J.Lawful)
    (B : Backend σ) (w : World σ) (accs : List Account) (u : String)
    (hwf : getOfflineAccounts J w.storage = collection accs)
    (hpre : startsWith u "offline-" = true) :
    (w.storage.getItem "default_user" = some u →
      (remove_user J B u w).2.storage.getItem "default_user" = none) ∧
    (w.storage.getItem "default_user" ≠ some u →
      (remove_user J B u w).2.storage.getItem "default_user" =
        w.storage.getItem "default_user") ∧
    ((w.storage.getItem "default_user" ≠ none ∧
        (remove_user J B u w).2.storage.getItem "default_user" = none) ↔
      w.storage.getItem "default_user" = some u) ∧
    (w.storage.getItem "default_user" = some u →
      (∃ stored, getOfflineAccounts J (remove_user J B u w).2.storage = collection stored ∧
        ∀ a ∈ stored, a.id ≠ u) ∧
      get_default_user B (remove_user J B u w).2 =
        invoke B.get_default_user .get_default_user (remove_user J B u w).2 ∧
      (get_default_user B (remove_user J B u w).2).2.calls =
        w.calls ++ [.get_default_user] ∧
      (get_default_user B (remove_user J B u w).2).1 =
        match (B.get_default_user w.remote).1 with
        | .ok v => .ok v
        | .error reason => .error (.rejected reason)) := by
  have hptr := default_after_remove J B w accs u hwf hpre
  have hst := stored_after_remove J hJ B w accs u hwf hpre
  have hrm := remove_user_offline J B w accs u hwf hpre
  simp only at hrm
  have hcalls : (remove_user J B u w).2.calls = w.calls := by rw [hrm]
  have hremote : (remove_user J B u w).2.remote = w.remote := by rw [hrm]
  have hyes : w.storage.getItem "default_user" = some u →
      (remove_user J B u w).2.storage.getItem "default_user" = none := by
    intro h
    have h2 := hptr
    simp only [DEFAULT_USER_KEY] at h2
    rw [h2, if_pos h]
  have hno : w.storage.getItem "default_user" ≠ some u →
      (remove_user J B u w).2.storage.getItem "default_user" =
        w.storage.getItem "default_user" := by
    intro h
    have h2 := hptr
    simp only [DEFAULT_USER_KEY] at h2
    rw [h2, if_neg h]
  refine ⟨hyes, hno, ⟨?_, ?_⟩, ?_⟩
  · rintro ⟨h1, h2⟩
    by_contra h3
    rw [hno h3] at h2
    exact h1 h2
  · intro h
    exact ⟨by rw [h]; simp, hyes h⟩
  · intro h
    have hdel := get_default_user_delegates B (remove_user J B u w).2 (hyes h)
    refine ⟨⟨_, hst, ?_⟩, hdel, ?_, ?_⟩
    · intro a ha
      simp only [List.mem_filter, decide_eq_true_eq] at ha
      exact ha.2
    · rw [hdel]
      simp only [invoke, hcalls]
    · rw [hdel]
      simp only [invoke, hremote]
      cases (B.get_default_user w.remote).1 <;> rfl

/-- Witness for C6: removing `"offline-bob"` right after `offline_login("bob")`
made it the default. -/
theorem remove_user_clears_default_iff_witness :
    exampleJson.Lawful ∧
    getOfflineAccounts exampleJson bobWorld.storage = collection [Account.offline "bob"] ∧
    startsWith "offline-bob" "offline-" = true ∧
    bobWorld.storage.getItem "default_user" = some "offline-bob" ∧
    (remove_user exampleJson exampleBackend "offline-bob" bobWorld).2.storage.getItem
      "default_user" = none ∧
    (get_default_user exampleBackend
        (remove_user exampleJson exampleBackend "offline-bob" bobWorld).2).2.calls =
      bobWorld.calls ++ [.get_default_user] :=
  have h := remove_user_clears_default_iff exampleJson exampleJson_lawful exampleBackend
    bobWorld [Account.offline "bob"] "offline-bob" bobWorld_stored (by decide)
  ⟨exampleJson_lawful, bobWorld_stored, by decide, bobWorld_default,
    h.1 bobWorld_default, (h.2.2.2 bobWorld_default).2.2.1⟩

/-- C7: on a well-formed offline collection and for an offline-prefixed id `u`,
`remove_user(u)` returns without throwing and without sending anything to the
backend, and the stored collection afterwards is the previous one without the
records whose id is `u`, the others kept in order; when no record has id `u`
the collection is the same before and after. -/
theorem remove_user_filters_collection {σ : Type} (J : JsonCodec) (hJ : J.Lawful)
    (B : Backend σ) (w : World σ) (accs : List Account) (u : String)
    (hwf : getOfflineAccounts J w.storage = collection accs)
    (hpre : startsWith u "offline-" = true) :
    (remove_user J B u w).1 = .ok none ∧
    (remove_user J B u w).2.calls = w.calls ∧
    (remove_user J B u w).2.remote = w.remote ∧
    getOfflineAccounts J (remove_user J B u w).2.storage =
      collection (accs.filter fun a => decide (a.id ≠ u)) ∧
    ((∀ a ∈ accs, a.id ≠ u) →
      getOfflineAccounts J (remove_user J B u w).2.storage =
        getOfflineAccounts J w.storage) := by
  have hst := stored_after_remove J hJ B w accs u hwf hpre
  have hrm := remove_user_offline J B w accs u hwf hpre
  simp only at hrm
  refine ⟨by rw [hrm], by rw [hrm], by rw [hrm], hst, ?_⟩
  intro hnone
  rw [hst, hwf]
  congr 1
  simp only [List.filter_eq_self, decide_eq_true_eq]
  exact hnone

/-- Witness for C7: removing `"offline-nonexistent"` from a collection that holds
only `"offline-bob"`. -/
theorem remove_user_filters_collection_witness :
    exampleJson.Lawful ∧
    getOfflineAccounts exampleJson bobWorld.storage = collection [Account.offline "bob"] ∧
    startsWith "offline-nonexistent" "offline-" = true ∧
    (∀ a ∈ [Account.offline "bob"], a.id ≠ "offline-nonexistent") ∧
    (remove_user exampleJson exampleBackend "offline-nonexistent" bobWorld).1 = .ok none ∧
    (remove_user exampleJson exampleBackend "offline-nonexistent" bobWorld).2.calls =
      bobWorld.calls ∧
    getOfflineAccounts exampleJson
        (remove_user exampleJson exampleBackend "offline-nonexistent" bobWorld).2.storage =
      getOfflineAccounts exampleJson bobWorld.storage :=
  have hnone : ∀ a ∈ [Account.offline "bob"], a.id ≠ "offline-nonexistent" := by
    simp [Account.offline, OFFLINE_USER_PREFIX]
  have h := remove_user_filters_collection exampleJson exampleJson_lawful exampleBackend
    bobWorld [Account.offline "bob"] "offline-nonexistent" bobWorld_stored (by decide)
  ⟨exampleJson_lawful, bobWorld_stored, by decide, hnone, h.1, h.2.1, h.2.2.2.2 hnone⟩

/-! ## The invariant of the stored collection -/

theorem storedInvariant_append {accs : List Account} {username : String}
    (h : StoredInvariant accs) (hfresh : ∀ a ∈ accs, a.username ≠ username) :
    StoredInvariant (accs ++ [Account.offline username]) := by
  refine ⟨?_, ?_⟩
  · intro a ha
    rcases List.mem_append.1 ha with ha | ha
    · exact h.1 a ha
    · rw [List.mem_singleton.1 ha]
      exact ⟨rfl, rfl⟩
  · rw [List.map_append, List.nodup_append]
    refine ⟨h.2, by simp, ?_⟩
    intro x hx hx2
    obtain ⟨a, ha, rfl⟩ := List.mem_map.1 hx
    simp only [List.map_cons, List.map_nil, List.mem_singleton, Account.offline] at hx2
    exact hfresh a ha hx2

theorem storedInvariant_filter {accs : List Account} (p : Account → Bool)
    (h : StoredInvariant accs) : StoredInvariant (accs.filter p) := by
  refine ⟨fun a ha => h.1 a (List.mem_of_mem_filter ha), ?_⟩
  exact List.Nodup.sublist (List.Sublist.map _ (List.filter_sublist accs)) h.2

theorem set_default_user_accounts {σ : Type} (J : JsonCodec) (B : Backend σ)
    (userId : String) (w : World σ) :
    getOfflineAccounts J (set_default_user B userId w).2.storage =
      getOfflineAccounts J w.storage := by
  unfold set_default_user
  split
  · exact getOfflineAccounts_setItem_default J _ _
  · rfl

theorem reachable_stored {σ : Type} (J : JsonCodec) (hJ : J.Lawful) (B : Backend σ)
    (w0 : World σ) (hr : Reachable J B w0) :
    ∃ accs, getOfflineAccounts J w0.storage = collection accs ∧ StoredInvariant accs := by
  induction hr with
  | initial s => exact ⟨[], rfl, by simp [StoredInvariant]⟩
  | @step w _ _ hs ih =>
    obtain ⟨accs, hwf, hinv⟩ := ih
    cases hs with
    | offline_login username =>
      by_cases hfail : ∃ e, (offline_login J username w).1 = .error e
      · obtain ⟨e, he⟩ := hfail
        rw [offline_login_error_world J username w e he]
        exact ⟨accs, hwf, hinv⟩
      · cases username with
        | none => exact absurd ⟨_, rfl⟩ hfail
        | some u =>
          have hu : u ≠ "" := by
            intro e
            subst e
            exact hfail ⟨_, rfl⟩
          have hfresh : ∀ a ∈ accs, a.username ≠ u := by
            intro a ha e
            apply hfail
            rw [offline_login_taken J w accs u hwf hu ⟨a, ha, e⟩]
            exact ⟨_, rfl⟩
          exact ⟨_, stored_after_login J hJ w accs u hwf hu hfresh,
            storedInvariant_append hinv hfresh⟩
    | remove_user userId =>
      by_cases hpre : startsWith userId OFFLINE_USER_PREFIX = true
      · exact ⟨_, stored_after_remove J hJ B w accs userId hwf hpre,
          storedInvariant_filter _ hinv⟩
      · have hst : (remove_user J B userId w).2.storage = w.storage := by
          simp only [remove_user, hpre]
          rfl
        rw [hst]
        exact ⟨accs, hwf, hinv⟩
    | set_default_user userId =>
      rw [set_default_user_accounts]
      exact ⟨accs, hwf, hinv⟩

theorem prefix_append_injective :
    Function.Injective fun username : String => OFFLINE_USER_PREFIX ++ username := by
  intro a b h
  have h2 := congrArg String.data h
  simp only [String.data_append, List.append_cancel_left_eq] at h2
  exact String.ext h2

/-- C8: in every world reachable from empty storage by `offline_login`,
`remove_user` and `set_default_user` calls, succeeding or failing, the stored
offline collection is well-formed, every record in it has id `"offline-"`
followed by its username and type `"offline"`, and no two records share a
username or an id. -/
theorem reachable_collection_invariant {σ : Type} (J : JsonCodec) (hJ : J.Lawful)
    (B : Backend σ) (w : World σ) (hr : Reachable J B w) :
    ∃ accs : List Account,
      getOfflineAccounts J w.storage = collection accs ∧
      (∀ a ∈ accs, a.id = "offline-" ++ a.username ∧ a.type = "offline") ∧
      (accs.map fun a => a.username).Nodup ∧
      (accs.map fun a => a.id).Nodup := by
  obtain ⟨accs, hwf, hinv⟩ := reachable_stored J hJ B w hr
  refine ⟨accs, hwf, hinv.1, hinv.2, ?_⟩
  have hmap : (accs.map fun a => a.id) =
      (accs.map fun a => a.username).map fun u => OFFLINE_USER_PREFIX ++ u := by
    rw [List.map_map]
    exact List.map_congr_left fun a ha => (hinv.1 a ha).1
  rw [hmap]
  exact List.Nodup.map prefix_append_injective hinv.2

theorem bobAliceWorld_stored :
    getOfflineAccounts exampleJson bobAliceWorld.storage =
      collection [Account.offline "bob", Account.offline "alice"] := by
  have hbob : (offline_login exampleJson (some "bob") bobWorld).2 = bobWorld := by
    rw [offline_login_taken exampleJson bobWorld [Account.offline "bob"] "bob"
      bobWorld_stored (by decide) ⟨Account.offline "bob", by simp, rfl⟩]
  have hset : getOfflineAccounts exampleJson
      (set_default_user exampleBackend "0b1c"
        (offline_login exampleJson (some "bob") bobWorld).2).2.storage =
      collection [Account.offline "bob"] := by
    rw [set_default_user_accounts, hbob]
    exact bobWorld_stored
  exact stored_after_login exampleJson exampleJson_lawful _ [Account.offline "bob"] "alice"
    hset (by decide) (by simp [Account.offline])

theorem bobAliceWorld_reachable : Reachable exampleJson exampleBackend bobAliceWorld :=
  .step (.step (.step (.step (.initial none) (.offline_login (some "bob") _))
    (.offline_login (some "bob") _)) (.set_default_user "0b1c" _))
    (.offline_login (some "alice") _)

/-- Witness for C8: the world after `offline_login("bob")`, a failing
`offline_login("bob")`, `set_default_user("0b1c")` and `offline_login("alice")`,
whose stored collection holds the two records of `"bob"` and `"alice"`. -/
theorem reachable_collection_invariant_witness :
    exampleJson.Lawful ∧
    Reachable exampleJson exampleBackend bobAliceWorld ∧
    getOfflineAccounts exampleJson bobAliceWorld.storage =
      collection [Account.offline "bob", Account.offline "alice"] ∧
    ∃ accs : List Account,
      getOfflineAccounts exampleJson bobAliceWorld.storage = collection accs ∧
      accs.length = 2 ∧
      (∀ a ∈ accs, a.id = "offline-" ++ a.username ∧ a.type = "offline") ∧
      (accs.map fun a => a.username).Nodup ∧
      (accs.map fun a => a.id).Nodup := by
  refine ⟨exampleJson_lawful, bobAliceWorld_reachable, bobAliceWorld_stored, ?_⟩
  obtain ⟨accs, hst, hrec, hnames, hids⟩ :=
    reachable_collection_invariant exampleJson exampleJson_lawful exampleBackend
      bobAliceWorld bobAliceWorld_reachable
  refine ⟨accs, hst, ?_, hrec, hnames, hids⟩
  have h := hst.symm.trans bobAliceWorld_stored
  simp only [collection, JVal.arr.injEq] at h
  have hlen := congrArg List.length h
  simpa using hlen

/-! ## A slot that does not parse -/

theorem getOfflineAccounts_unparsable (J : JsonCodec) (ls : LocalStorage) (raw : String)
    (hraw : ls.getItem OFFLINE_ACCOUNTS_KEY = some raw) (hbad : J.parse raw = none) :
    getOfflineAccounts J ls = .arr [] := by
  simp only [getOfflineAccounts, hraw, hbad]
  split <;> rfl

theorem getOfflineAccounts_absent (J : JsonCodec) (ls : LocalStorage)
    (hraw : ls.getItem OFFLINE_ACCOUNTS_KEY = none) :
    getOfflineAccounts J ls = .arr [] := by
  simp only [getOfflineAccounts, hraw]

theorem offline_login_empty_collection {σ : Type} (J : JsonCodec) (w : World σ)
    (username : String) (hempty : getOfflineAccounts J w.storage = .arr [])
    (hne : username ≠ "") :
    offline_login J (some username) w =
      (.ok (accountRecord username),
       { w with storage :=
          (saveOfflineAccounts J (.arr [accountRecord username])
            w.storage).setItem DEFAULT_USER_KEY (OFFLINE_USER_PREFIX ++ username) }) :=
  offline_login_fresh J w [] username hempty hne (by simp)

theorem setItem_setItem_eq (ls ls' : LocalStorage) (k v : String)
    (h : ∀ k', k' ≠ k → ls' k' = ls k') : ls'.setItem k v = ls.setItem k v := by
  funext k'
  by_cases hk : k' = k
  · simp [LocalStorage.setItem, hk]
  · simp [LocalStorage.setItem, hk, h k' hk]

/-- C9: when the text under the offline-accounts key is not valid JSON, reading
the collection gives the empty array; `users()` and `offline_login(username)`
return what they return when the slot is absent; `users()` returns the
backend's list alone and writes nothing; `offline_login` of a non-empty
username succeeds, leaves the same world as from the absent slot, and stores
the one-record collection; and `offline_login` fails only for a missing or
empty username, writing nothing. -/
theorem unparsable_slot_is_empty {σ : Type} (J : JsonCodec) (B : Backend σ)
    (w : World σ) (raw : String) (username : Option String)
    (hbad : J.parse raw = none) :
    let wbad : World σ := { w with storage := w.storage.setItem "offline_accounts" raw }
    let wabs : World σ := { w with storage := w.storage.removeItem "offline_accounts" }
    getOfflineAccounts J wbad.storage = .arr [] ∧
    (users J B wbad).1 = (users J B wabs).1 ∧
    (users J B wbad).1 =
      .ok (match (B.get_users w.remote).1 with
           | .ok remoteUsers => remoteUsers
           | .error _ => []) ∧
    (users J B wbad).2.storage = wbad.storage ∧
    (offline_login J username wbad).1 = (offline_login J username wabs).1 ∧
    (∀ u, username = some u → u ≠ "" →
      (offline_login J username wbad).1 =
        .ok (.obj [("id", .str ("offline-" ++ u)), ("username", .str u),
                   ("type", .str "offline")]) ∧
      (offline_login J username wbad).2 = (offline_login J username wabs).2 ∧
      (offline_login J username wbad).2.storage.getItem "offline_accounts" =
        some (J.stringify (.arr [.obj [("id", .str ("offline-" ++ u)),
          ("username", .str u), ("type", .str "offline")]]))) ∧
    (∀ e, (offline_login J username wbad).1 = .error e →
      (username = none ∨ username = some "") ∧
      (offline_login J username wbad).2 = wbad) := by
  intro wbad wabs
  have hb : getOfflineAccounts J wbad.storage = .arr [] :=
    getOfflineAccounts_unparsable J _ raw (getItem_setItem_same _ _ _) hbad
  have ha : getOfflineAccounts J wabs.storage = .arr [] :=
    getOfflineAccounts_absent J _ (getItem_removeItem_same _ _)
  have hub := users_collection J B wbad [] hb
  have hua := users_collection J B wabs [] ha
  have hlogin : ∀ u, u ≠ "" →
      offline_login J (some u) wbad =
        (.ok (accountRecord u),
         { wbad with storage :=
            (saveOfflineAccounts J (.arr [accountRecord u])
              wbad.storage).setItem DEFAULT_USER_KEY (OFFLINE_USER_PREFIX ++ u) }) ∧
      offline_login J (some u) wabs =
        (.ok (accountRecord u),
         { wabs with storage :=
            (saveOfflineAccounts J (.arr [accountRecord u])
              wabs.storage).setItem DEFAULT_USER_KEY (OFFLINE_USER_PREFIX ++ u) }) :=
    fun u hu => ⟨offline_login_empty_collection J wbad u hb hu,
      offline_login_empty_collection J wabs u ha hu⟩
  have hsame : ∀ v : String,
      saveOfflineAccounts J (.arr [accountRecord v]) wbad.storage =
        saveOfflineAccounts J (.arr [accountRecord v]) wabs.storage := by
    intro v
    apply setItem_setItem_eq
    intro k hk
    have hk2 : k ≠ "offline_accounts" := hk
    simp [wbad, wabs, LocalStorage.setItem, LocalStorage.removeItem, hk2]
  refine ⟨hb, ?_, ?_, ?_, ?_, ?_, ?_⟩
  rotate_right
  · intro e he
    refine ⟨?_, offline_login_error_world J username wbad e he⟩
    cases username with
    | none => exact Or.inl rfl
    | some u =>
      by_cases hu : u = ""
      · exact Or.inr (by rw [hu])
      · rw [(hlogin u hu).1] at he
        cases he
  · rw [hub, hua]
  · rw [hub]
    simp
  · rw [hub]
    rfl
  · cases username with
    | none => rfl
    | some u =>
      by_cases hu : u = ""
      · subst hu
        rfl
      · rw [(hlogin u hu).1, (hlogin u hu).2]
  · intro u hus hu
    subst hus
    rw [(hlogin u hu).1, (hlogin u hu).2]
    refine ⟨rfl, ?_, ?_⟩
    · simp only [hsame]
    · exact (getItem_setItem_other _ _ _ _ (Ne.symm default_key_ne_accounts_key)).trans
        (getItem_setItem_same _ _ _)

/-- Witness for C9: the text `not valid json`, which the example codec rejects,
in a world whose backend rejects every command. -/
theorem unparsable_slot_is_empty_witness :
    exampleJson.parse "not valid json" = none ∧
    getOfflineAccounts exampleJson
      (LocalStorage.setItem LocalStorage.empty "offline_accounts" "not valid json") =
      .arr [] ∧
    (users exampleJson offlineBackend
      { World.initial () with
        storage := LocalStorage.setItem LocalStorage.empty "offline_accounts"
          "not valid json" }).1 = .ok [] ∧
    (offline_login exampleJson (some "bob")
      { World.initial () with
        storage := LocalStorage.setItem LocalStorage.empty "offline_accounts"
          "not valid json" }).1 =
      .ok (.obj [("id", .str ("offline-" ++ "bob")), ("username", .str "bob"),
                 ("type", .str "offline")]) :=
  have h := unparsable_slot_is_empty exampleJson offlineBackend (World.initial ())
    "not valid json" (some "bob") rfl
  ⟨rfl, h.1, h.2.2.1, (h.2.2.2.2.2.1 "bob" rfl (by decide)).1⟩

/-! ## The local-account predicate -/

theorem isLocalAccount_account (a : Account) (h : a.type ≠ "local") :
    isLocalAccount (some a.toJVal) = false := by
  simp [isLocalAccount, getProp, Account.toJVal, List.lookup, strictEqStr, h]

theorem offline_login_ok_record {σ : Type} (J : JsonCodec) (username : Option String)
    (w : World σ) (account : JVal) (hok : (offline_login J username w).1 = .ok account) :
    ∃ u, account = (Account.offline u).toJVal := by
  cases username with
  | none => simp [offline_login] at hok
  | some u =>
    refine ⟨u, ?_⟩
    by_cases hu : u = ""
    · simp [offline_login, hu] at hok
    · cases hacc : getOfflineAccounts J w.storage with
      | arr l =>
        cases ht : usernameTaken u l with
        | error e => simp [offline_login, hu, hacc, ht] at hok
        | ok b =>
          cases b with
          | true => simp [offline_login, hu, hacc, ht] at hok
          | false =>
            simp only [offline_login, hu, if_false, hacc, ht, Except.ok.injEq] at hok
            rw [← hok]
            rfl
      | _ => simp [offline_login, hu, hacc] at hok

/-- C10: `isLocalAccount(session)` is true exactly when the session is an object
whose `type` member is the string `"local"`; it is false for a missing session,
false for `{type: "offline"}`, true for `{type: "local"}`, false for every
record `offline_login` returns, and false for every record found in the stored
offline collection of a world reachable from empty storage. -/
theorem isLocalAccount_iff_type_local :
    (∀ session, isLocalAccount session = true ↔
      ∃ fields, session = some (.obj fields) ∧
        fields.lookup "type" = some (.str "local")) ∧
    isLocalAccount none = false ∧
    isLocalAccount (some (.obj [("type", .str "offline")])) = false ∧
    isLocalAccount (some (.obj [("type", .str "local")])) = true ∧
    (∀ (σ : Type) (J : JsonCodec) (username : Option String) (w : World σ) (account : JVal),
      (offline_login J username w).1 = .ok account →
        isLocalAccount (some account) = false) ∧
    (∀ (σ : Type) (J : JsonCodec) (B : Backend σ) (w : World σ),
      J.Lawful → Reachable J B w →
        ∃ l, getOfflineAccounts J w.storage = .arr l ∧
          ∀ v ∈ l, isLocalAccount (some v) = false) := by
  refine ⟨?_, rfl, rfl, rfl, ?_, ?_⟩
  · intro session
    constructor
    · intro h
      cases session with
      | none => simp [isLocalAccount] at h
      | some v =>
        cases v with
        | obj fields =>
          refine ⟨fields, rfl, ?_⟩
          simp only [isLocalAccount, getProp, strictEqStr] at h
          split at h
          · rename_i t ht
            simp only [beq_iff_eq] at h
            rw [ht, h]
          · simp at h
        | _ => simp [isLocalAccount, getProp, strictEqStr] at h
    · rintro ⟨fields, rfl, h⟩
      simp [isLocalAccount, getProp, strictEqStr, h]
  · intro σ J username w account hok
    obtain ⟨u, rfl⟩ := offline_login_ok_record J username w account hok
    refine isLocalAccount_account _ ?_
    show "offline" ≠ "local"
    decide
  · intro σ J B w hJ hr
    obtain ⟨accs, hwf, hinv⟩ := reachable_stored J hJ B w hr
    refine ⟨_, hwf, ?_⟩
    intro v hv
    obtain ⟨a, ha, rfl⟩ := List.mem_map.1 hv
    refine isLocalAccount_account a ?_
    rw [(hinv.1 a ha).2]
    decide

/-- Witness for C10: the record returned by `offline_login("bob")` on empty
storage, and the records stored in the world that holds `"bob"`, are not local
accounts. -/
theorem isLocalAccount_iff_type_local_witness :
    (offline_login exampleJson (some "bob") (World.initial ())).1 =
      .ok (accountRecord "bob") ∧
    isLocalAccount (some (accountRecord "bob")) = false ∧
    exampleJson.Lawful ∧
    Reachable exampleJson exampleBackend bobWorld ∧
    ∃ l, getOfflineAccounts exampleJson bobWorld.storage = .arr l ∧
      ∀ v ∈ l, isLocalAccount (some v) = false :=
  have hr : Reachable exampleJson exampleBackend bobWorld :=
    .step (.initial none) (.offline_login (some "bob") _)
  ⟨rfl,
    isLocalAccount_iff_type_local.2.2.2.2.1 Unit exampleJson (some "bob") (World.initial ())
      (accountRecord "bob") rfl,
    exampleJson_lawful, hr,
    isLocalAccount_iff_type_local.2.2.2.2.2 (Option String) exampleJson exampleBackend
      bobWorld exampleJson_lawful hr⟩

end Auth
